import Mathlib

/-!
Shallow embedding of `trivia-world/server.ts` (the multiplayer session
coordinator).  Each Socket.IO handler is modelled as a pure function from the
in-memory registry `games : Record<string, Game>` (modelled as an association
list) to a new registry together with the list of emitted events.  The two
`setTimeout` callbacks stored in `game.timer` (the question-deadline callback
and the 3-second next-question callback) and the anonymous 200 ms reveal
callback scheduled by the all-answered branch of `submit-answer` are modelled
as explicit "fire" functions; the deadline callback's closure capture of the
`raw` question value is modelled by storing the question inside the timer.
`Math.random()`-driven data (the session code's base-36 digit expansion, the
answer shuffle) are parameters.  Socket.IO room membership is not modelled:
events carry their destination (room broadcast vs. direct reply) instead.
JavaScript truthiness tests in the source (`!!p.lastAnswer`,
`if (player.lastAnswer)`, `if (ans && ans === correct)`,
`if (game.questionEndAt)`) are modelled exactly: the empty string and the
number 0 are falsy.
-/

namespace TriviaServer

/-- `Player` record, server.ts lines 8-16.  `lastAnswer`/`lastAnswerTs` are the
optional runtime fields (absent = `undefined`). -/
structure Player where
  id : String
  name : String
  score : Nat
  avatar : Option String
  lastAnswer : Option String
  lastAnswerTs : Option Int
  deriving DecidableEq, Repr

/-- Internal `Question` shape, server.ts lines 38-45.  The optional `type`
field is never written or read by server.ts and is omitted. -/
structure Question where
  category : Option String
  difficulty : Option String
  question : String
  correct_answer : String
  incorrect_answers : List String
  deriving DecidableEq, Repr

/-- `TriviaApiQuestionResponse`, server.ts lines 47-53 (`question.text` is
flattened to `questionText`). -/
structure ApiQuestion where
  category : String
  questionText : String
  difficulty : String
  correctAnswer : String
  incorrectAnswers : List String
  deriving DecidableEq, Repr

/-- Persisted `game.settings`, server.ts lines 22-27 / 212-217.  `timeLimit`
is `number | null`: `none` models `null`, `some n` a number. -/
structure Settings where
  category : Option String
  difficulty : Option String
  amount : Nat
  timeLimit : Option Int
  deriving DecidableEq, Repr

/-- The client-supplied `settings` argument of `start-game` (server.ts line
206): every field may be absent.  `timeLimit : Option (Option Int)` encodes
`undefined` (`none`) vs `null` (`some none`) vs a number (`some (some n)`). -/
structure StartSettings where
  category : Option String
  difficulty : Option String
  amount : Option Nat
  timeLimit : Option (Option Int)
  deriving DecidableEq, Repr

/-- The single pending callback stored in `game.timer`.  `deadline` is the
question-timeout callback armed in `sendQuestion` (server.ts line 418), which
closes over the dispatched question `raw`; `nextQuestion` is the 3-second
callback armed after evaluation (lines 331 and 447). -/
inductive GameTimer where
  | deadline (idx : Nat) (raw : Question)
  | nextQuestion
  deriving DecidableEq, Repr

/-- `Game` record, server.ts lines 18-36.  Optional fields model
`undefined`; `active`/`evaluating` collapse `undefined` to `false` (they are
only ever truthiness-tested). -/
structure Game where
  players : List Player
  host : String
  settings : Option Settings
  currentQuestionIndex : Option Nat
  questions : Option (List Question)
  active : Bool
  timer : Option GameTimer
  questionEndAt : Option Int
  evaluating : Bool
  currentAllAnswers : Option (List String)
  deriving DecidableEq, Repr

/-- The registry `games : Record<string, Game>` (server.ts line 69), as an
association list with distinct keys. -/
abbrev Games : Type := List (String × Game)

/-- `games[code]` (read). -/
def getGame (gs : Games) (code : String) : Option Game :=
  match gs with
  | [] => none
  | (c, g) :: rest => if c = code then some g else getGame rest code

/-- `games[code] = g` (write: replace an existing binding or append). -/
def setGame (gs : Games) (code : String) (g : Game) : Games :=
  match gs with
  | [] => [(code, g)]
  | (c, g0) :: rest => if c = code then (code, g) :: rest else (c, g0) :: setGame rest code g

/-- `delete games[code]`. -/
def delGame (gs : Games) (code : String) : Games :=
  match gs with
  | [] => []
  | (c, g0) :: rest => if c = code then rest else (c, g0) :: delGame rest code

/-- JavaScript truthiness of an optional string (`!!p.lastAnswer`,
`if (player.lastAnswer)`): present and non-empty. -/
def truthyStr (s : Option String) : Bool :=
  match s with
  | some a => a ≠ ""
  | none => false

/-- JavaScript truthiness of an optional number (`if (game.questionEndAt)`):
present and non-zero. -/
def truthyInt (v : Option Int) : Bool :=
  match v with
  | some n => n ≠ 0
  | none => false

/-- The sanitized per-player view broadcast by `submit-answer` and sent by
`get-state` (server.ts lines 157, 283, 291):
`{ id, name, score, answered: !!p.lastAnswer, avatar }`. -/
structure PlayerView where
  id : String
  name : String
  score : Nat
  answered : Bool
  avatar : Option String
  deriving DecidableEq, Repr

/-- The per-player view used by `question-ended` and `game-over`
(server.ts lines 325, 440, 478): `{ id, name, score, avatar }`. -/
structure ScoreView where
  id : String
  name : String
  score : Nat
  avatar : Option String
  deriving DecidableEq, Repr

def playerView (p : Player) : PlayerView :=
  { id := p.id, name := p.name, score := p.score, answered := truthyStr p.lastAnswer,
    avatar := p.avatar }

def scoreView (p : Player) : ScoreView :=
  { id := p.id, name := p.name, score := p.score, avatar := p.avatar }

/-- The `question` payload built by `sendQuestion` (server.ts lines 388-398)
and by `get-state` (lines 175-185). -/
structure QuestionPayload where
  index : Nat
  question : String
  category : Option String
  difficulty : Option String
  correct_answer : String
  incorrect_answers : List String
  all_answers : List String
  timeLimit : Option Int
  endTime : Option Int
  deriving DecidableEq, Repr

def questionPayloadOf (idx : Nat) (raw : Question) (all_answers : List String)
    (timeLimit : Option Int) (endTime : Option Int) : QuestionPayload :=
  { index := idx, question := raw.question, category := raw.category,
    difficulty := raw.difficulty, correct_answer := raw.correct_answer,
    incorrect_answers := raw.incorrect_answers, all_answers := all_answers,
    timeLimit := timeLimit, endTime := endTime }

/-- Every server → client event payload of server.ts.  `updatePlayersRaw`
models the emits of the raw `game.players` array (create-game 95, join-game
118, get-players 139, leave-game 362, disconnect 503), whose serialization
includes any `lastAnswer` fields; `updatePlayersView` models the sanitized
map used by submit-answer (line 283). -/
inductive ServerEvent where
  | gameCreated (code : String)
  | updatePlayersRaw (players : List Player)
  | updatePlayersView (players : List PlayerView)
  | joinSuccess (code : String)
  | joinError (msg : String)
  | stateSnapshot (players : List PlayerView) (question : Option QuestionPayload)
      (timeLeft : Option Int) (myAnswer : Option String)
  | gameStarted (settings : Settings)
  | questionEv (q : QuestionPayload)
  | startError (msg : String)
  | allAnswered (players : List PlayerView)
  | questionEnded (correctAnswer : Option String) (players : List ScoreView) (transitionEnd : Int)
  | gameOver (players : List ScoreView)
  deriving DecidableEq, Repr

/-- An emitted event together with its destination: `io.to(code).emit`
(room broadcast) or `socket.emit` (direct reply to one connection). -/
inductive Emit where
  | toRoom (code : String) (ev : ServerEvent)
  | toSocket (sid : String) (ev : ServerEvent)
  deriving DecidableEq, Repr

/-- All string values occurring in a serialized raw `Player` object. -/
def playerStrings (p : Player) : List String :=
  [p.id, p.name] ++ p.avatar.toList ++ p.lastAnswer.toList

/-- All string values occurring in a serialized `PlayerView`. -/
def viewStrings (v : PlayerView) : List String :=
  [v.id, v.name] ++ v.avatar.toList

def scoreViewStrings (v : ScoreView) : List String :=
  [v.id, v.name] ++ v.avatar.toList

/-- All string values occurring in a serialized question payload. -/
def questionPayloadStrings (q : QuestionPayload) : List String :=
  [q.question] ++ q.category.toList ++ q.difficulty.toList ++ [q.correct_answer]
    ++ q.incorrect_answers ++ q.all_answers

def settingsStrings (s : Settings) : List String :=
  s.category.toList ++ s.difficulty.toList

/-- All string values in an event payload, modelling what the JSON
serialization of the payload reveals to its recipients. -/
def eventStrings (ev : ServerEvent) : List String :=
  match ev with
  | .gameCreated code => [code]
  | .updatePlayersRaw ps => (ps.map playerStrings).flatten
  | .updatePlayersView ps => (ps.map viewStrings).flatten
  | .joinSuccess code => [code]
  | .joinError msg => [msg]
  | .stateSnapshot ps q _ myAnswer =>
      (ps.map viewStrings).flatten ++ (q.map questionPayloadStrings).getD []
        ++ myAnswer.toList
  | .gameStarted s => settingsStrings s
  | .questionEv q => questionPayloadStrings q
  | .startError msg => [msg]
  | .allAnswered ps => (ps.map viewStrings).flatten
  | .questionEnded correct ps _ => correct.toList ++ (ps.map scoreViewStrings).flatten
  | .gameOver ps => (ps.map scoreViewStrings).flatten

/-- Base-36 digit character, as produced by `Number.prototype.toString(36)`:
`0`-`9` then `a`-`z`. -/
def base36Char (d : Nat) : Char :=
  if d < 10 then Char.ofNat (48 + d) else Char.ofNat (87 + d)

/-- The character sequence `Math.random().toString(36)` prints for a value in
`[0, 1)`, parameterized by the value's base-36 fractional digit expansion
`ds` (canonical: no trailing zero digit; each digit < 36).  An empty
expansion is the value `0`, printed as `"0"`; otherwise the printout is
`"0." ++ digits`. -/
def jsNumChars36 (ds : List Nat) : List Char :=
  match ds with
  | [] => ['0']
  | _ => '0' :: '.' :: ds.map base36Char

/-- `Math.random().toString(36).substring(2, 7).toUpperCase()`
(server.ts line 84): drop the leading `"0."`, keep at most 5 characters,
upper-case them. -/
def genCode (ds : List Nat) : String :=
  String.mk ((((jsNumChars36 ds).drop 2).take 5).map Char.toUpper)

/-- A fresh player object `{ id, name, score: 0, avatar }`
(server.ts lines 88 and 114). -/
def newPlayer (sid pname : String) (avatar : Option String) : Player :=
  { id := sid, name := pname, score := 0, avatar := avatar,
    lastAnswer := none, lastAnswerTs := none }

/-- `create-game` handler, server.ts lines 83-96.  `ds` is the base-36 digit
expansion of the `Math.random()` draw used for the code. -/
def createGame (gs : Games) (sid : String) (pname : String) (avatar : Option String)
    (ds : List Nat) : Games × List Emit :=
  let code := genCode ds
  let g : Game :=
    { players := [newPlayer sid pname avatar], host := sid, settings := none,
      currentQuestionIndex := none, questions := none, active := false,
      timer := none, questionEndAt := none, evaluating := false,
      currentAllAnswers := none }
  (setGame gs code g,
    [Emit.toSocket sid (.gameCreated code), Emit.toRoom code (.updatePlayersRaw g.players)])

/-- `join-game` handler, server.ts lines 107-125. -/
def joinGame (gs : Games) (sid : String) (gameCode : String) (pname : String)
    (avatar : Option String) : Games × List Emit :=
  match getGame gs gameCode with
  | none => (gs, [Emit.toSocket sid (.joinError "Game not found. Please check the code.")])
  | some game =>
    let alreadyPresent := game.players.any (fun p => p.id == sid)
    let game1 :=
      if alreadyPresent then game
      else { game with players := game.players ++ [newPlayer sid pname avatar] }
    (setGame gs gameCode game1,
      [Emit.toRoom gameCode (.updatePlayersRaw game1.players),
       Emit.toSocket sid (.joinSuccess gameCode)])

/-- `get-players` handler, server.ts lines 135-143 (query only: registry
unchanged). -/
def getPlayers (gs : Games) (sid : String) (gameCode : String) : List Emit :=
  match getGame gs gameCode with
  | none => [Emit.toSocket sid (.joinError "Game not found. Please check the code.")]
  | some game => [Emit.toSocket sid (.updatePlayersRaw game.players)]

/-- `typeof timeLimitSetting === 'number' && timeLimitSetting > 0 ? timeLimitSetting : null`
applied to `game.settings?.timeLimit` (server.ts lines 172-173 and 385-386). -/
def effTimeLimit (settings : Option Settings) : Option Int :=
  match settings with
  | some st =>
    match st.timeLimit with
    | some n => if 0 < n then some n else none
    | none => none
  | none => none

/-- `Math.max(0, Math.ceil(d / 1000))` for an integer millisecond delta `d`
(server.ts line 189). -/
def remainingSeconds (d : Int) : Int :=
  max 0 ((d + 999).ediv 1000)

/-- `get-state` handler, server.ts lines 153-195 (query only: registry
unchanged).  `shuffle` stands for the `sort(() => Math.random() - 0.5)`
fallback rearrangement; `now` is `Date.now()`. -/
def getState (gs : Games) (sid : String) (gameCode : String)
    (shuffle : List String → List String) (now : Int) : List Emit :=
  match getGame gs gameCode with
  | none => [Emit.toSocket sid (.joinError "Game not found.")]
  | some game =>
    let players := game.players.map playerView
    let myAnswer := (game.players.find? (fun p => p.id == sid)).bind (fun p => p.lastAnswer)
    if game.evaluating then
      [Emit.toSocket sid (.stateSnapshot players none none none)]
    else
      match game.currentQuestionIndex with
      | none => [Emit.toSocket sid (.stateSnapshot players none none none)]
      | some idx =>
        match (game.questions.getD [])[idx]? with
        | none => [Emit.toSocket sid (.stateSnapshot players none none none)]
        | some raw =>
          let all_answers :=
            (game.currentAllAnswers).getD (shuffle (raw.incorrect_answers ++ [raw.correct_answer]))
          let timeLimit := effTimeLimit game.settings
          let endTime :=
            match game.questionEndAt with
            | some t => some t
            | none => timeLimit.map (fun tl => now + tl * 1000)
          let question := questionPayloadOf idx raw all_answers timeLimit endTime
          let timeLeft :=
            match game.questionEndAt with
            | some t => if t ≠ 0 then some (remainingSeconds (t - now)) else none
            | none => none
          [Emit.toSocket sid (.stateSnapshot players (some question) timeLeft myAnswer)]

/-- `endGame`, server.ts lines 463-480. -/
def endGame (gs : Games) (gameCode : String) : Games × List Emit :=
  match getGame gs gameCode with
  | none => (gs, [])
  | some game =>
    let game1 := { game with active := false, timer := none, currentAllAnswers := none }
    (setGame gs gameCode game1,
      [Emit.toRoom gameCode (.gameOver (game.players.map scoreView))])

/-- `delete p.lastAnswer; delete p.lastAnswerTs` (server.ts lines 401-404). -/
def clearAnswer (p : Player) : Player :=
  { p with lastAnswer := none, lastAnswerTs := none }

/-- `sendQuestion`, server.ts lines 371-456.  `shuffle` stands for
`sort(() => Math.random() - 0.5)`; `now` is `Date.now()`.  Arming the
deadline timeout is modelled by storing `GameTimer.deadline idx raw` (the
callback body runs in `deadlineFire`). -/
def sendQuestion (gs : Games) (gameCode : String)
    (shuffle : List String → List String) (now : Int) : Games × List Emit :=
  match getGame gs gameCode with
  | none => (gs, [])
  | some game =>
    match game.questions with
    | none => (gs, [])
    | some qs =>
      let idx := game.currentQuestionIndex.getD 0
      match qs[idx]? with
      | none => endGame gs gameCode
      | some raw =>
        let all_answers := shuffle (raw.incorrect_answers ++ [raw.correct_answer])
        let timeLimit := effTimeLimit game.settings
        let endTime := timeLimit.map (fun tl => now + tl * 1000)
        let question := questionPayloadOf idx raw all_answers timeLimit endTime
        let game1 :=
          { game with
            currentAllAnswers := some all_answers,
            players := game.players.map clearAnswer,
            questionEndAt := endTime,
            timer :=
              match timeLimit with
              | some _ => some (GameTimer.deadline idx raw)
              | none => none }
        (setGame gs gameCode game1, [Emit.toRoom gameCode (.questionEv question)])

/-- The persisted settings computed by `start-game` (server.ts lines
212-217): `amount` defaults to 10, an absent (`undefined`) `timeLimit`
defaults to 15, an explicit `null` is kept. -/
def mkSettings (inp : Option StartSettings) : Settings :=
  { category := inp.bind (fun s => s.category),
    difficulty := inp.bind (fun s => s.difficulty),
    amount := (inp.bind (fun s => s.amount)).getD 10,
    timeLimit :=
      match inp.bind (fun s => s.timeLimit) with
      | none => some 15
      | some v => v }

/-- Outcome of `fetch` + `res.json()` on The Trivia API (server.ts lines
231-232): a parsed batch, or a thrown transport/parse error. -/
inductive FetchResult where
  | ok (data : List ApiQuestion)
  | err
  deriving DecidableEq, Repr

/-- Formatting of a fetched question (server.ts lines 234-240). -/
def formatQuestion (q : ApiQuestion) : Question :=
  { category := some q.category, question := q.questionText,
    difficulty := some q.difficulty, correct_answer := q.correctAnswer,
    incorrect_answers := q.incorrectAnswers }

/-- `start-game` handler, server.ts lines 206-251.  The outcome of the
external fetch is the parameter `fetched`; note that `game.settings` is
persisted before the `try` block, so it is mutated even when the fetch
throws. -/
def startGame (gs : Games) (sid : String) (gameCode : String)
    (inp : Option StartSettings) (fetched : FetchResult)
    (shuffle : List String → List String) (now : Int) : Games × List Emit :=
  match getGame gs gameCode with
  | none => (gs, [Emit.toSocket sid (.startError "Game not found")])
  | some game =>
    if game.host ≠ sid then
      (gs, [Emit.toSocket sid (.startError "Only the host can start the game")])
    else
      let settings := mkSettings inp
      let game1 := { game with settings := some settings }
      match fetched with
      | .err =>
        (setGame gs gameCode game1,
          [Emit.toSocket sid (.startError "Failed to fetch questions")])
      | .ok data =>
        let game2 :=
          { game1 with
            questions := some (data.map formatQuestion),
            currentQuestionIndex := some 0,
            active := true }
        let gs2 := setGame gs gameCode game2
        let sent := sendQuestion gs2 gameCode shuffle now
        (sent.1, Emit.toRoom gameCode (.gameStarted settings) :: sent.2)

/-- Record the first matching player's answer (`find` + in-place mutation,
server.ts lines 272-279): only the first roster entry with this id is
updated. -/
def setAnswerFirst (sid answer : String) (now : Int) : List Player → List Player
  | [] => []
  | p :: ps =>
    if p.id = sid then { p with lastAnswer := some answer, lastAnswerTs := some now } :: ps
    else p :: setAnswerFirst sid answer now ps

/-- `submit-answer` handler, server.ts lines 264-337, up to and including the
all-answered branch's synchronous part (emit `all-answered`, clear the
deadline timer, set `evaluating`).  The 200 ms delayed evaluation body is
`revealEvalFire`. -/
def submitAnswer (gs : Games) (sid : String) (gameCode : String) (answer : String)
    (questionIndex : Nat) (now : Int) : Games × List Emit :=
  match getGame gs gameCode with
  | none => (gs, [])
  | some game =>
    if !game.active then (gs, [])
    else if game.currentQuestionIndex ≠ some questionIndex then (gs, [])
    else
      match game.players.find? (fun p => p.id == sid) with
      | none => (gs, [])
      | some player =>
        if truthyStr player.lastAnswer then (gs, [])
        else
          let players1 := setAnswerFirst sid answer now game.players
          let game1 := { game with players := players1 }
          let ev1 := Emit.toRoom gameCode (.updatePlayersView (players1.map playerView))
          let allAnswered := players1.all (fun p => truthyStr p.lastAnswer)
          if allAnswered && !game1.evaluating then
            let game2 := { game1 with evaluating := true, timer := none }
            (setGame gs gameCode game2,
              [ev1, Emit.toRoom gameCode (.allAnswered (players1.map playerView))])
          else (setGame gs gameCode game1, [ev1])

/-- Scoring of one player (server.ts lines 305-313 and 423-431):
`if (ans && ans === correct) p.score += 1`, then both runtime fields are
deleted.  The truthiness guard skips an empty-string answer. -/
def scorePlayer (correct : Option String) (p : Player) : Player :=
  let hit :=
    match p.lastAnswer with
    | some a => a ≠ "" && some a == correct
    | none => false
  { p with
    score := (if hit then p.score + 1 else p.score),
    lastAnswer := none, lastAnswerTs := none }

/-- The 200 ms callback body of the all-answered branch (server.ts lines
300-335).  It is pending exactly when `evaluating` is set and `game.timer`
was nulled by the branch that scheduled it; `now` is `Date.now()` at fire
time. -/
def revealEvalFire (gs : Games) (gameCode : String) (now : Int) : Games × List Emit :=
  match getGame gs gameCode with
  | none => (gs, [])
  | some game =>
    if game.evaluating && game.timer == none then
      let idx := game.currentQuestionIndex.getD 0
      let correct := ((game.questions.getD [])[idx]?).map (fun q => q.correct_answer)
      let players1 := game.players.map (scorePlayer correct)
      let transitionEnd := now + 3000
      let game1 :=
        { game with
          players := players1,
          currentAllAnswers := none,
          currentQuestionIndex := some (idx + 1),
          timer := some GameTimer.nextQuestion }
      (setGame gs gameCode game1,
        [Emit.toRoom gameCode
          (.questionEnded correct (players1.map scoreView) transitionEnd)])
    else (gs, [])

/-- The deadline-timeout callback body armed by `sendQuestion` (server.ts
lines 418-451), enabled while the armed deadline timer is still stored;
`raw` is the closure-captured question carried by the timer. -/
def deadlineFire (gs : Games) (gameCode : String) (now : Int) : Games × List Emit :=
  match getGame gs gameCode with
  | none => (gs, [])
  | some game =>
    match game.timer with
    | some (GameTimer.deadline _ raw) =>
      let correct := raw.correct_answer
      let players1 := game.players.map (scorePlayer (some correct))
      let transitionEnd := now + 3000
      let idx := game.currentQuestionIndex.getD 0
      let game1 :=
        { game with
          evaluating := true,
          players := players1,
          questionEndAt := none,
          currentAllAnswers := none,
          currentQuestionIndex := some (idx + 1),
          timer := some GameTimer.nextQuestion }
      (setGame gs gameCode game1,
        [Emit.toRoom gameCode
          (.questionEnded (some correct) (players1.map scoreView) transitionEnd)])
    | _ => (gs, [])

/-- The 3-second next-question callback (server.ts lines 331-334 and
447-450): clear `evaluating`, then `sendQuestion`. -/
def nextQuestionFire (gs : Games) (gameCode : String)
    (shuffle : List String → List String) (now : Int) : Games × List Emit :=
  match getGame gs gameCode with
  | none => (gs, [])
  | some game =>
    match game.timer with
    | some GameTimer.nextQuestion =>
      sendQuestion (setGame gs gameCode { game with evaluating := false }) gameCode shuffle now
    | _ => (gs, [])

/-- `findIndex` + `splice(idx, 1)` (server.ts lines 349-352 and 490-492):
remove the first roster entry with this connection id. -/
def removeFirstById (sid : String) : List Player → List Player
  | [] => []
  | p :: ps => if p.id = sid then ps else p :: removeFirstById sid ps

/-- `leave-game` handler, server.ts lines 346-364. -/
def leaveGame (gs : Games) (sid : String) (gameCode : String) : Games × List Emit :=
  match getGame gs gameCode with
  | none => (gs, [])
  | some game =>
    let players1 := removeFirstById sid game.players
    match players1 with
    | [] => (delGame gs gameCode, [])
    | p0 :: _ =>
      let host1 := if game.host = sid then p0.id else game.host
      (setGame gs gameCode { game with players := players1, host := host1 },
        [Emit.toRoom gameCode (.updatePlayersRaw players1)])

/-- One entry of the `disconnect` scan (server.ts lines 489-506). -/
def disconnectEntry (sid : String) (code : String) (game : Game) :
    Option (String × Game) × List Emit :=
  if game.players.any (fun p => p.id == sid) then
    let players1 := removeFirstById sid game.players
    match players1 with
    | [] => (none, [])
    | p0 :: _ =>
      let host1 := if game.host = sid then p0.id else game.host
      (some (code, { game with players := players1, host := host1 }),
        [Emit.toRoom code (.updatePlayersRaw players1)])
  else (some (code, game), [])

/-- `disconnect` handler, server.ts lines 487-507: scan every session for the
departing connection id. -/
def disconnect (gs : Games) (sid : String) : Games × List Emit :=
  match gs with
  | [] => ([], [])
  | (code, game) :: rest =>
    let head := disconnectEntry sid code game
    let tail := disconnect rest sid
    (match head.1 with
     | some e => e :: tail.1
     | none => tail.1,
     head.2 ++ tail.2)

/-- One serialized state transition of the coordinator: a client event
handler running to completion, or a pending timer callback firing. -/
inductive Step : Games → Games → Prop where
  | create (gs : Games) (sid pname : String) (avatar : Option String) (ds : List Nat) :
      Step gs (createGame gs sid pname avatar ds).1
  | join (gs : Games) (sid gameCode pname : String) (avatar : Option String) :
      Step gs (joinGame gs sid gameCode pname avatar).1
  | start (gs : Games) (sid gameCode : String) (inp : Option StartSettings)
      (fetched : FetchResult) (shuffle : List String → List String) (now : Int) :
      Step gs (startGame gs sid gameCode inp fetched shuffle now).1
  | submit (gs : Games) (sid gameCode answer : String) (questionIndex : Nat) (now : Int) :
      Step gs (submitAnswer gs sid gameCode answer questionIndex now).1
  | reveal (gs : Games) (gameCode : String) (now : Int) :
      Step gs (revealEvalFire gs gameCode now).1
  | deadline (gs : Games) (gameCode : String) (now : Int) :
      Step gs (deadlineFire gs gameCode now).1
  | nextq (gs : Games) (gameCode : String) (shuffle : List String → List String) (now : Int) :
      Step gs (nextQuestionFire gs gameCode shuffle now).1
  | leave (gs : Games) (sid gameCode : String) :
      Step gs (leaveGame gs sid gameCode).1
  | disc (gs : Games) (sid : String) :
      Step gs (disconnect gs sid).1

/-- Registry states reachable from the empty registry by serialized handler
and timer steps (`get-players` and `get-state` do not mutate the registry). -/
inductive Reachable : Games → Prop where
  | init : Reachable []
  | step {gs gs' : Games} : Reachable gs → Step gs gs' → Reachable gs'

/-! ### Derived definitions used by the statements -/

/-- The registry's key list. -/
def keys (gs : Games) : List String := gs.map (fun e => e.1)

/-- The roster's connection-id list. -/
def ids (ps : List Player) : List String := ps.map (fun p => p.id)

/-- Invariant of one session: non-empty roster, pairwise distinct connection
ids, and the host is the earliest-joined (index-0) player. -/
def GoodGame (g : Game) : Prop :=
  g.players ≠ [] ∧ (ids g.players).Nodup ∧ (ids g.players).head? = some g.host

/-- Invariant of the registry: distinct session codes, every session good. -/
def GoodReg (gs : Games) : Prop :=
  (keys gs).Nodup ∧ ∀ e ∈ gs, GoodGame e.2

/-- Whether the stored timer is an armed question-deadline timeout. -/
def deadlineArmed (t : Option GameTimer) : Bool :=
  match t with
  | some (GameTimer.deadline _ _) => true
  | _ => false

/-- The correct answer captured by an armed deadline timer's closure. -/
def timerCorrect (t : Option GameTimer) : Option String :=
  match t with
  | some (GameTimer.deadline _ raw) => some raw.correct_answer
  | _ => none

/-- The `correct` value used by the all-answered evaluation
(server.ts lines 302-304): the current question's correct answer, if any. -/
def correctOf (g : Game) : Option String :=
  ((g.questions.getD [])[g.currentQuestionIndex.getD 0]?).map (fun q => q.correct_answer)

/-- An uppercase alphanumeric character (`0`-`9` or `A`-`Z`). -/
def isUpperAlnum (c : Char) : Bool :=
  (('0' ≤ c && c ≤ '9') || ('A' ≤ c && c ≤ 'Z'))

/-! ### Concrete fixtures used by counterexamples and witnesses -/

/-- A sample fetched question whose correct answer is `"Water"`. -/
def exApiQ : ApiQuestion :=
  { category := "Science", questionText := "What is H2O?", difficulty := "easy",
    correctAnswer := "Water", incorrectAnswers := ["Fire", "Air", "Earth"] }

/-- A sample fetched question whose correct answer is the empty string. -/
def exApiQEmpty : ApiQuestion :=
  { category := "Science", questionText := "Name the colorless answer", difficulty := "easy",
    correctAnswer := "", incorrectAnswers := ["Red"] }

/-- Registry after `create-game` from connection `s1` with random digit
expansion `[10, 11, 12, 13, 14]`, which yields the code `"ABCDE"`. -/
def gsCreated : Games := (createGame [] "s1" "Alice" none [10, 11, 12, 13, 14]).1

/-- The session stored under `"ABCDE"` in `gsCreated`. -/
def gameABCDE : Game :=
  { players := [{ id := "s1", name := "Alice", score := 0, avatar := none,
                  lastAnswer := none, lastAnswerTs := none }],
    host := "s1", settings := none, currentQuestionIndex := none, questions := none,
    active := false, timer := none, questionEndAt := none, evaluating := false,
    currentAllAnswers := none }

/-- Registry after a successful `start-game` (default settings, one fetched
question `exApiQ`) at time 0. -/
def gsStarted : Games := (startGame gsCreated "s1" "ABCDE" none (.ok [exApiQ]) id 0).1

/-- `gsStarted` after the sole player submits the correct answer: the
all-answered branch runs (evaluating set, timer cleared). -/
def gsAnswered : Games := (submitAnswer gsStarted "s1" "ABCDE" "Water" 0 5).1

/-- The session stored under `"ABCDE"` in `gsAnswered`. -/
def gameAnswered : Game :=
  { players := [{ id := "s1", name := "Alice", score := 0, avatar := none,
                  lastAnswer := some "Water", lastAnswerTs := some 5 }],
    host := "s1",
    settings := some { category := none, difficulty := none, amount := 10, timeLimit := some 15 },
    currentQuestionIndex := some 0,
    questions := some [formatQuestion exApiQ],
    active := true, timer := none, questionEndAt := some 15000, evaluating := true,
    currentAllAnswers := some ["Fire", "Air", "Earth", "Water"] }

/-- The session stored under `"ABCDE"` in `gsStarted`: question 0 is open
(active, not evaluating), with a 15-second deadline armed. -/
def gameOpenQuestion : Game :=
  { players := [{ id := "s1", name := "Alice", score := 0, avatar := none,
                  lastAnswer := none, lastAnswerTs := none }],
    host := "s1",
    settings := some { category := none, difficulty := none, amount := 10,
                       timeLimit := some 15 },
    currentQuestionIndex := some 0,
    questions := some [formatQuestion exApiQ],
    active := true,
    timer := some (GameTimer.deadline 0 (formatQuestion exApiQ)),
    questionEndAt := some 15000, evaluating := false,
    currentAllAnswers := some ["Fire", "Air", "Earth", "Water"] }

/-- `gsCreated` after a second player joins. -/
def gs2p : Games := (joinGame gsCreated "s2" "ABCDE" "Bob" none).1

/-- The session stored under `"ABCDE"` after `s1` leaves `gs2p`. -/
def gameAfterLeave : Game :=
  { players := [{ id := "s2", name := "Bob", score := 0, avatar := none,
                  lastAnswer := none, lastAnswerTs := none }],
    host := "s2", settings := none, currentQuestionIndex := none, questions := none,
    active := false, timer := none, questionEndAt := none, evaluating := false,
    currentAllAnswers := none }

/-- An 8-player session (capacity per the spec): `s1` creates, `s2`-`s8` join. -/
def gs8 : Games :=
  (joinGame (joinGame (joinGame (joinGame (joinGame (joinGame (joinGame gsCreated
    "s2" "ABCDE" "P2" none).1
    "s3" "ABCDE" "P3" none).1
    "s4" "ABCDE" "P4" none).1
    "s5" "ABCDE" "P5" none).1
    "s6" "ABCDE" "P6" none).1
    "s7" "ABCDE" "P7" none).1
    "s8" "ABCDE" "P8" none).1

/-- Registry after a start whose sole question has the empty string as its
correct answer. -/
def gsEmptyCorrect : Games :=
  (startGame gsCreated "s1" "ABCDE" none (.ok [exApiQEmpty]) id 0).1

/-- `gsEmptyCorrect` after the sole player submits the empty string — which
equals the question's correct answer text. -/
def gsEmptySub : Games := (submitAnswer gsEmptyCorrect "s1" "ABCDE" "" 0 5).1

/-- Start settings with an explicit `null` time limit (untimed). -/
def nullLimitSettings : StartSettings :=
  { category := none, difficulty := none, amount := none, timeLimit := some none }

/-- Registry after an untimed start (`timeLimit` explicitly `null`). -/
def gsUntimed : Games :=
  (startGame gsCreated "s1" "ABCDE" (some nullLimitSettings) (.ok [exApiQ]) id 0).1

theorem getGame_setGame_self (gs : Games) (code : String) (g : Game) :
    getGame (setGame gs code g) code = some g := by
  induction gs with
  | nil => simp [setGame, getGame]
  | cons e rest ih =>
    by_cases h : e.1 = code
    · simp [setGame, getGame, h]
    · simp [setGame, getGame, h, ih]

theorem getGame_eq_none_of_not_mem_keys {gs : Games} {code : String}
    (h : code ∉ keys gs) : getGame gs code = none := by
  induction gs with
  | nil => rfl
  | cons e rest ih =>
    simp only [keys, List.map_cons, List.mem_cons, not_or] at h
    simp [getGame, Ne.symm h.1, ih (by simpa [keys] using h.2)]

theorem mem_keys_setGame {gs : Games} {code x : String} {g : Game}
    (h : x ∈ keys (setGame gs code g)) : x ∈ keys gs ∨ x = code := by
  induction gs with
  | nil => simpa [setGame, keys] using h
  | cons e rest ih =>
    by_cases he : e.1 = code
    · simp only [setGame, he, if_true, keys, List.map_cons, List.mem_cons] at h ⊢
      rcases h with h | h
      · right; exact h
      · left; right; exact h
    · simp only [setGame, he, if_false, keys, List.map_cons, List.mem_cons] at h ⊢
      rcases h with h | h
      · left; left; exact h
      · rcases ih h with h' | h'
        · left; right; exact h'
        · right; exact h'

theorem nodupKeys_setGame {gs : Games} {code : String} {g : Game}
    (h : (keys gs).Nodup) : (keys (setGame gs code g)).Nodup := by
  induction gs with
  | nil => simp [setGame, keys]
  | cons e rest ih =>
    simp only [keys, List.map_cons, List.nodup_cons] at h
    by_cases he : e.1 = code
    · simp only [setGame, he, if_true, keys, List.map_cons, List.nodup_cons]
      exact ⟨by simpa [keys, he] using h.1, h.2⟩
    · simp only [setGame, he, if_false, keys, List.map_cons, List.nodup_cons]
      refine ⟨fun hx => ?_, ih h.2⟩
      rcases mem_keys_setGame hx with h' | h'
      · exact h.1 (by simpa [keys] using h')
      · exact he h'

theorem keys_delGame_sublist (gs : Games) (code : String) :
    (keys (delGame gs code)).Sublist (keys gs) := by
  induction gs with
  | nil => simp [delGame, keys]
  | cons e rest ih =>
    by_cases he : e.1 = code
    · simp only [delGame, if_pos he, keys, List.map_cons]
      exact (List.Sublist.refl _).cons _
    · simp only [delGame, if_neg he, keys, List.map_cons]
      exact ih.cons₂ _

theorem getGame_delGame_self {gs : Games} {code : String}
    (h : (keys gs).Nodup) : getGame (delGame gs code) code = none := by
  induction gs with
  | nil => rfl
  | cons e rest ih =>
    simp only [keys, List.map_cons, List.nodup_cons] at h
    by_cases he : e.1 = code
    · simp only [delGame, he, if_true]
      exact getGame_eq_none_of_not_mem_keys (by simpa [keys, he] using h.1)
    · simp [delGame, getGame, he, ih h.2]

theorem getGame_mem {gs : Games} {code : String} {g : Game}
    (h : getGame gs code = some g) : (code, g) ∈ gs := by
  induction gs with
  | nil => simp [getGame] at h
  | cons e rest ih =>
    by_cases he : e.1 = code
    · simp only [getGame, he, if_true, Option.some.injEq] at h
      have : e = (code, g) := by
        obtain ⟨c0, g0⟩ := e
        simp only at he h
        rw [he, h]
      rw [this]
      exact List.mem_cons_self _ _
    · simp only [getGame, he, if_false] at h
      exact List.mem_cons_of_mem _ (ih h)

theorem mem_setGame {gs : Games} {code : String} {g : Game} {e : String × Game}
    (h : e ∈ setGame gs code g) : e ∈ gs ∨ e = (code, g) := by
  induction gs with
  | nil => simpa [setGame] using h
  | cons e0 rest ih =>
    by_cases he : e0.1 = code
    · simp only [setGame, he, if_true, List.mem_cons] at h
      rcases h with h | h
      · right; exact h
      · left; exact List.mem_cons_of_mem _ h
    · simp only [setGame, he, if_false, List.mem_cons] at h
      rcases h with h | h
      · left; exact h ▸ List.mem_cons_self _ _
      · rcases ih h with h' | h'
        · left; exact List.mem_cons_of_mem _ h'
        · right; exact h'

theorem mem_delGame {gs : Games} {code : String} {e : String × Game}
    (h : e ∈ delGame gs code) : e ∈ gs := by
  induction gs with
  | nil => simp [delGame] at h
  | cons e0 rest ih =>
    by_cases he : e0.1 = code
    · simp only [delGame, he, if_true] at h
      exact List.mem_cons_of_mem _ h
    · simp only [delGame, he, if_false, List.mem_cons] at h
      rcases h with h | h
      · exact h ▸ List.mem_cons_self _ _
      · exact List.mem_cons_of_mem _ (ih h)

/-! ### Roster helper lemmas -/

theorem ids_removeFirstById (sid : String) (ps : List Player) :
    ids (removeFirstById sid ps) = (ids ps).erase sid := by
  induction ps with
  | nil => rfl
  | cons p rest ih =>
    by_cases h : p.id = sid
    · simp [removeFirstById, h, ids, List.erase_cons_head]
    · simp only [removeFirstById, h, if_false, ids, List.map_cons]
      rw [List.erase_cons_tail]
      · simpa [ids] using ih
      · simp [h]

theorem ids_setAnswerFirst (sid answer : String) (now : Int) (ps : List Player) :
    ids (setAnswerFirst sid answer now ps) = ids ps := by
  induction ps with
  | nil => rfl
  | cons p rest ih =>
    by_cases h : p.id = sid
    · simp [setAnswerFirst, h, ids]
    · have ih' := ih
      simp only [ids] at ih'
      simp only [setAnswerFirst, if_neg h, ids, List.map_cons, ih']

theorem ids_map_of_id_preserving {f : Player → Player}
    (hf : ∀ p, (f p).id = p.id) (ps : List Player) : ids (ps.map f) = ids ps := by
  induction ps with
  | nil => rfl
  | cons p rest ih =>
    have ih' := ih
    simp only [ids] at ih'
    simp only [ids, List.map_cons, ih', hf]

/-! ### The reachable-state invariant -/

theorem goodGame_of_getGame {gs : Games} {code : String} {g : Game}
    (hr : GoodReg gs) (h : getGame gs code = some g) : GoodGame g :=
  hr.2 _ (getGame_mem h)

theorem goodReg_setGame {gs : Games} {code : String} {g : Game}
    (hr : GoodReg gs) (hg : GoodGame g) : GoodReg (setGame gs code g) := by
  refine ⟨nodupKeys_setGame hr.1, fun e he => ?_⟩
  rcases mem_setGame he with h | h
  · exact hr.2 _ h
  · rw [h]; exact hg

theorem goodReg_delGame {gs : Games} {code : String}
    (hr : GoodReg gs) : GoodReg (delGame gs code) :=
  ⟨(keys_delGame_sublist gs code).nodup hr.1, fun _ he => hr.2 _ (mem_delGame he)⟩

/-- A session transformation that keeps the id sequence and the host keeps
the invariant. -/
theorem goodGame_of_same_ids {g g' : Game}
    (hg : GoodGame g) (hids : ids g'.players = ids g.players)
    (hhost : g'.host = g.host) : GoodGame g' := by
  refine ⟨fun hnil => hg.1 ?_, by rw [hids]; exact hg.2.1, by rw [hids, hhost]; exact hg.2.2⟩
  have : ids g'.players = [] := by rw [hnil]; rfl
  have h2 : ids g.players = [] := by rw [← hids]; exact this
  simpa [ids] using h2

/-- Removing a player and reassigning the host as leave-game/disconnect do
keeps the invariant, provided the remaining roster is non-empty. -/
theorem goodGame_after_remove {g : Game} {sid : String} {p0 : Player} {t : List Player}
    (hg : GoodGame g) (hrem : removeFirstById sid g.players = p0 :: t) :
    GoodGame { g with players := p0 :: t,
                      host := if g.host = sid then p0.id else g.host } := by
  have hids : ids (p0 :: t) = (ids g.players).erase sid := by
    rw [← hrem, ids_removeFirstById]
  refine ⟨by simp, ?_, ?_⟩
  · show (ids (p0 :: t)).Nodup
    rw [hids]
    exact (List.erase_sublist _ _).nodup hg.2.1
  · show (ids (p0 :: t)).head? = some (if g.host = sid then p0.id else g.host)
    by_cases hh : g.host = sid
    · simp [hh, ids]
    · rw [if_neg hh]
      obtain ⟨tl, htl⟩ : ∃ tl, ids g.players = g.host :: tl := by
        have h22 := hg.2.2
        cases hi : ids g.players with
        | nil => rw [hi] at h22; simp at h22
        | cons a tl =>
          rw [hi] at h22
          simp only [List.head?_cons, Option.some.injEq] at h22
          exact ⟨tl, by rw [h22]⟩
      rw [hids, htl, List.erase_cons_tail]
      · simp
      · simp [hh]

theorem ids_append (l1 l2 : List Player) : ids (l1 ++ l2) = ids l1 ++ ids l2 :=
  List.map_append _ _ _

theorem nodup_append_singleton {l : List String} {a : String}
    (ha : a ∉ l) (hl : l.Nodup) : (l ++ [a]).Nodup := by
  simp [List.nodup_append, ha, hl]

theorem not_mem_ids_of_not_any {ps : List Player} {sid : String}
    (h : ps.any (fun p => p.id == sid) = false) : sid ∉ ids ps := by
  intro hmem
  simp only [ids, List.mem_map] at hmem
  obtain ⟨p, hp, hid⟩ := hmem
  have : ps.any (fun p => p.id == sid) = true :=
    List.any_eq_true.mpr ⟨p, hp, by simp [hid]⟩
  rw [h] at this
  exact Bool.false_ne_true this

theorem clearAnswer_id (p : Player) : (clearAnswer p).id = p.id := rfl

theorem scorePlayer_id (correct : Option String) (p : Player) :
    (scorePlayer correct p).id = p.id := rfl

/-! ### Preservation of the invariant by every operation -/

theorem goodReg_createGame {gs : Games} (hr : GoodReg gs)
    (sid pname : String) (avatar : Option String) (ds : List Nat) :
    GoodReg (createGame gs sid pname avatar ds).1 := by
  refine goodReg_setGame hr ⟨by simp, ?_, ?_⟩
  · simp [ids, newPlayer]
  · simp [ids, newPlayer]

/-- Appending a fresh connection id keeps the invariant. -/
theorem goodGame_append_new {g : Game} {sid pname : String} {avatar : Option String}
    (hg : GoodGame g) (hnew : sid ∉ ids g.players) :
    GoodGame { g with players := g.players ++ [newPlayer sid pname avatar] } := by
  refine ⟨by simp, ?_, ?_⟩
  · show (ids (g.players ++ [newPlayer sid pname avatar])).Nodup
    rw [ids_append]
    exact nodup_append_singleton (by simpa [ids, newPlayer] using hnew) hg.2.1
  · show (ids (g.players ++ [newPlayer sid pname avatar])).head? = some g.host
    rw [ids_append, List.head?_append_of_ne_nil]
    · exact hg.2.2
    · intro hnil
      exact hg.1 (by simpa [ids] using hnil)

theorem goodReg_joinGame {gs : Games} (hr : GoodReg gs)
    (sid gameCode pname : String) (avatar : Option String) :
    GoodReg (joinGame gs sid gameCode pname avatar).1 := by
  cases hq : getGame gs gameCode with
  | none => simpa [joinGame, hq] using hr
  | some game =>
    have hg := goodGame_of_getGame hr hq
    simp only [joinGame, hq]
    by_cases hap : game.players.any (fun p => p.id == sid) = true
    · rw [hap]
      simpa using goodReg_setGame hr hg
    · have hap' : game.players.any (fun p => p.id == sid) = false :=
        Bool.eq_false_iff.mpr hap
      rw [hap']
      simpa using goodReg_setGame hr
        (goodGame_append_new hg (not_mem_ids_of_not_any hap'))

theorem goodReg_endGame {gs : Games} (hr : GoodReg gs) (gameCode : String) :
    GoodReg (endGame gs gameCode).1 := by
  cases hq : getGame gs gameCode with
  | none => simpa [endGame, hq] using hr
  | some game =>
    have hg := goodGame_of_getGame hr hq
    simp only [endGame, hq]
    exact goodReg_setGame hr (goodGame_of_same_ids hg rfl rfl)

theorem goodReg_sendQuestion {gs : Games} (hr : GoodReg gs) (gameCode : String)
    (shuffle : List String → List String) (now : Int) :
    GoodReg (sendQuestion gs gameCode shuffle now).1 := by
  cases hq : getGame gs gameCode with
  | none => simpa [sendQuestion, hq] using hr
  | some game =>
    have hg := goodGame_of_getGame hr hq
    cases hqs : game.questions with
    | none => simpa [sendQuestion, hq, hqs] using hr
    | some qs =>
      cases hraw : qs[game.currentQuestionIndex.getD 0]? with
      | none =>
        simpa [sendQuestion, hq, hqs, hraw] using goodReg_endGame hr gameCode
      | some raw =>
        simp only [sendQuestion, hq, hqs, hraw]
        exact goodReg_setGame hr
          (goodGame_of_same_ids hg (ids_map_of_id_preserving clearAnswer_id _) rfl)

theorem goodReg_startGame {gs : Games} (hr : GoodReg gs) (sid gameCode : String)
    (inp : Option StartSettings) (fetched : FetchResult)
    (shuffle : List String → List String) (now : Int) :
    GoodReg (startGame gs sid gameCode inp fetched shuffle now).1 := by
  cases hq : getGame gs gameCode with
  | none => simpa [startGame, hq] using hr
  | some game =>
    have hg := goodGame_of_getGame hr hq
    simp only [startGame, hq]
    by_cases hh : game.host ≠ sid
    · rw [if_pos hh]
      exact hr
    · rw [if_neg hh]
      cases fetched with
      | err =>
        refine goodReg_setGame hr ?_
        exact goodGame_of_same_ids hg rfl rfl
      | ok data =>
        show GoodReg (sendQuestion _ gameCode shuffle now).1
        refine goodReg_sendQuestion (goodReg_setGame hr ?_) gameCode shuffle now
        exact goodGame_of_same_ids hg rfl rfl

theorem goodReg_submitAnswer {gs : Games} (hr : GoodReg gs)
    (sid gameCode answer : String) (questionIndex : Nat) (now : Int) :
    GoodReg (submitAnswer gs sid gameCode answer questionIndex now).1 := by
  cases hq : getGame gs gameCode with
  | none => simpa [submitAnswer, hq] using hr
  | some game =>
    have hg := goodGame_of_getGame hr hq
    by_cases ha : !game.active
    · simpa [submitAnswer, hq, ha] using hr
    · by_cases hidx : game.currentQuestionIndex ≠ some questionIndex
      · simpa [submitAnswer, hq, ha, hidx] using hr
      · cases hp : game.players.find? (fun p => p.id == sid) with
        | none => simpa [submitAnswer, hq, ha, hidx, hp] using hr
        | some player =>
          by_cases hla : truthyStr player.lastAnswer
          · simpa [submitAnswer, hq, ha, hidx, hp, hla] using hr
          · by_cases hall :
                ((setAnswerFirst sid answer now game.players).all
                  (fun p => truthyStr p.lastAnswer) && !game.evaluating) = true
            · simp only [submitAnswer, hq, ha, hidx, hp, hla, hall, if_true, if_false,
                ite_false, ite_true, Bool.false_eq_true]
              refine goodReg_setGame hr ?_
              exact goodGame_of_same_ids hg (ids_setAnswerFirst _ _ _ _) rfl
            · simp only [submitAnswer, hq, ha, hidx, hp, hla, if_true, if_false,
                ite_false, ite_true, Bool.false_eq_true]
              rw [if_neg (by simpa using hall)]
              refine goodReg_setGame hr ?_
              exact goodGame_of_same_ids hg (ids_setAnswerFirst _ _ _ _) rfl

theorem goodReg_revealEvalFire {gs : Games} (hr : GoodReg gs)
    (gameCode : String) (now : Int) :
    GoodReg (revealEvalFire gs gameCode now).1 := by
  cases hq : getGame gs gameCode with
  | none => simpa [revealEvalFire, hq] using hr
  | some game =>
    have hg := goodGame_of_getGame hr hq
    by_cases hev : (game.evaluating && game.timer == none) = true
    · simp only [revealEvalFire, hq, hev, if_true]
      refine goodReg_setGame hr ?_
      exact goodGame_of_same_ids hg (ids_map_of_id_preserving (scorePlayer_id _) _) rfl
    · simpa [revealEvalFire, hq, hev] using hr

theorem goodReg_deadlineFire {gs : Games} (hr : GoodReg gs)
    (gameCode : String) (now : Int) :
    GoodReg (deadlineFire gs gameCode now).1 := by
  cases hq : getGame gs gameCode with
  | none => simpa [deadlineFire, hq] using hr
  | some game =>
    have hg := goodGame_of_getGame hr hq
    cases ht : game.timer with
    | none => simpa [deadlineFire, hq, ht] using hr
    | some t =>
      cases t with
      | deadline idx raw =>
        simp only [deadlineFire, hq, ht]
        refine goodReg_setGame hr ?_
        exact goodGame_of_same_ids hg (ids_map_of_id_preserving (scorePlayer_id _) _) rfl
      | nextQuestion => simpa [deadlineFire, hq, ht] using hr

theorem goodReg_nextQuestionFire {gs : Games} (hr : GoodReg gs) (gameCode : String)
    (shuffle : List String → List String) (now : Int) :
    GoodReg (nextQuestionFire gs gameCode shuffle now).1 := by
  cases hq : getGame gs gameCode with
  | none => simpa [nextQuestionFire, hq] using hr
  | some game =>
    have hg := goodGame_of_getGame hr hq
    cases ht : game.timer with
    | none => simpa [nextQuestionFire, hq, ht] using hr
    | some t =>
      cases t with
      | deadline idx raw => simpa [nextQuestionFire, hq, ht] using hr
      | nextQuestion =>
        simp only [nextQuestionFire, hq, ht]
        refine goodReg_sendQuestion (goodReg_setGame hr ?_) gameCode shuffle now
        exact goodGame_of_same_ids hg rfl rfl

theorem goodReg_leaveGame {gs : Games} (hr : GoodReg gs) (sid gameCode : String) :
    GoodReg (leaveGame gs sid gameCode).1 := by
  cases hq : getGame gs gameCode with
  | none => simpa [leaveGame, hq] using hr
  | some game =>
    have hg := goodGame_of_getGame hr hq
    cases hrem : removeFirstById sid game.players with
    | nil => simpa [leaveGame, hq, hrem] using goodReg_delGame hr
    | cons p0 t =>
      simp only [leaveGame, hq, hrem]
      exact goodReg_setGame hr (goodGame_after_remove hg hrem)

theorem disconnectEntry_key {sid code : String} {g : Game} {e : String × Game}
    (h : (disconnectEntry sid code g).1 = some e) : e.1 = code := by
  by_cases hap : g.players.any (fun p => p.id == sid) = true
  · cases hrem : removeFirstById sid g.players with
    | nil => simp [disconnectEntry, hap, hrem] at h
    | cons p0 t =>
      simp only [disconnectEntry, hap, if_true, hrem] at h
      rw [← Option.some.inj h]
  · simp only [disconnectEntry, hap, if_false] at h
    rw [← Option.some.inj h]

theorem disconnectEntry_good {sid code : String} {g : Game} {e : String × Game}
    (hg : GoodGame g) (h : (disconnectEntry sid code g).1 = some e) : GoodGame e.2 := by
  by_cases hap : g.players.any (fun p => p.id == sid) = true
  · cases hrem : removeFirstById sid g.players with
    | nil => simp [disconnectEntry, hap, hrem] at h
    | cons p0 t =>
      simp only [disconnectEntry, hap, if_true, hrem] at h
      rw [← Option.some.inj h]
      exact goodGame_after_remove hg hrem
  · simp only [disconnectEntry, hap, if_false] at h
    rw [← Option.some.inj h]
    exact hg

theorem keys_disconnect_sublist (gs : Games) (sid : String) :
    (keys (disconnect gs sid).1).Sublist (keys gs) := by
  induction gs with
  | nil => simp [disconnect, keys]
  | cons e rest ih =>
    cases he : (disconnectEntry sid e.1 e.2).1 with
    | none =>
      simp only [disconnect, he, keys, List.map_cons]
      exact ih.cons _
    | some e' =>
      simp only [disconnect, he, keys, List.map_cons]
      rw [disconnectEntry_key he]
      exact ih.cons₂ _

theorem goodReg_disconnect {gs : Games} (hr : GoodReg gs) (sid : String) :
    GoodReg (disconnect gs sid).1 := by
  refine ⟨(keys_disconnect_sublist gs sid).nodup hr.1, ?_⟩
  have hmem := hr.2
  clear hr
  induction gs with
  | nil => simp [disconnect]
  | cons e rest ih =>
    intro e' he'
    cases he : (disconnectEntry sid e.1 e.2).1 with
    | none =>
      simp only [disconnect, he] at he'
      exact ih (fun x hx => hmem x (List.mem_cons_of_mem _ hx)) e' he'
    | some e0 =>
      simp only [disconnect, he, List.mem_cons] at he'
      rcases he' with he' | he'
      · rw [he']
        exact disconnectEntry_good (hmem e (List.mem_cons_self _ _)) he
      · exact ih (fun x hx => hmem x (List.mem_cons_of_mem _ hx)) e' he'

/-- Every reachable registry satisfies the invariant: distinct codes,
non-empty rosters with pairwise distinct connection ids, and the host is
always the roster's index-0 (earliest-joined) player. -/
theorem reachable_goodReg {gs : Games} (h : Reachable gs) : GoodReg gs := by
  induction h with
  | init => exact ⟨List.nodup_nil, by simp⟩
  | step _ hs ih =>
    cases hs with
    | create sid pname avatar ds => exact goodReg_createGame ih sid pname avatar ds
    | join sid gameCode pname avatar => exact goodReg_joinGame ih sid gameCode pname avatar
    | start sid gameCode inp fetched shuffle now =>
      exact goodReg_startGame ih sid gameCode inp fetched shuffle now
    | submit sid gameCode answer questionIndex now =>
      exact goodReg_submitAnswer ih sid gameCode answer questionIndex now
    | reveal gameCode now => exact goodReg_revealEvalFire ih gameCode now
    | deadline gameCode now => exact goodReg_deadlineFire ih gameCode now
    | nextq gameCode shuffle now => exact goodReg_nextQuestionFire ih gameCode shuffle now
    | leave sid gameCode => exact goodReg_leaveGame ih sid gameCode
    | disc sid => exact goodReg_disconnect ih sid

/-! ### Further helper lemmas for the claim theorems -/

theorem getGame_setGame_ne {gs : Games} {code c : String} {g : Game}
    (h : c ≠ code) : getGame (setGame gs code g) c = getGame gs c := by
  induction gs with
  | nil => simp [setGame, getGame, Ne.symm h]
  | cons e rest ih =>
    by_cases he : e.1 = code
    · simp [setGame, getGame, he, Ne.symm h]
    · by_cases hc : e.1 = c
      · simp [setGame, getGame, he, hc, h]
      · simp [setGame, getGame, he, hc, h, ih]

theorem scores_setAnswerFirst (sid answer : String) (now : Int) (ps : List Player) :
    (setAnswerFirst sid answer now ps).map (fun p => p.score) = ps.map (fun p => p.score) := by
  induction ps with
  | nil => rfl
  | cons p rest ih =>
    by_cases h : p.id = sid
    · simp [setAnswerFirst, h]
    · simp only [setAnswerFirst, if_neg h, List.map_cons, ih]

theorem countP_host_eq_one {g : Game} (hg : GoodGame g) :
    g.players.countP (fun p => p.id == g.host) = 1 := by
  have h1 : g.players.countP (fun p => p.id == g.host) = (ids g.players).count g.host := by
    simp only [ids, List.count, List.countP_map]
    rfl
  rw [h1]
  refine List.count_eq_one_of_mem hg.2.1 ?_
  have h22 := hg.2.2
  cases hi : ids g.players with
  | nil => rw [hi] at h22; simp at h22
  | cons a tl =>
    rw [hi] at h22
    simp only [List.head?_cons, Option.some.injEq] at h22
    rw [← h22]
    exact List.mem_cons_self _ _

theorem any_id_of_removeFirstById_nil {ps : List Player} {sid : String}
    (hne : ps ≠ []) (h : removeFirstById sid ps = []) :
    ps.any (fun p => p.id == sid) = true := by
  cases ps with
  | nil => exact absurd rfl hne
  | cons p t =>
    by_cases hp : p.id = sid
    · simp [List.any_cons, hp]
    · rw [removeFirstById, if_neg hp] at h
      exact absurd h (by simp)

theorem not_mem_keys_disconnect {gs : Games} {code : String} {sid : String}
    (h : code ∉ keys gs) : getGame (disconnect gs sid).1 code = none :=
  getGame_eq_none_of_not_mem_keys
    (fun hmem => h ((keys_disconnect_sublist gs sid).subset hmem))

theorem getGame_disconnect_removed {gs : Games} {sid code : String} {g : Game}
    (hnd : (keys gs).Nodup) (h : getGame gs code = some g)
    (hap : g.players.any (fun p => p.id == sid) = true)
    (hrem : removeFirstById sid g.players = []) :
    getGame (disconnect gs sid).1 code = none := by
  induction gs with
  | nil => simp [getGame] at h
  | cons e rest ih =>
    simp only [keys, List.map_cons, List.nodup_cons] at hnd
    by_cases he : e.1 = code
    · have hge : e.2 = g := by
        simp only [getGame, he, if_true, Option.some.injEq] at h
        exact h
      have hentry : (disconnectEntry sid e.1 e.2).1 = none := by
        rw [hge]
        simp [disconnectEntry, hap, hrem]
      simp only [disconnect, hentry]
      exact not_mem_keys_disconnect (by simpa [keys, he] using hnd.1)
    · simp only [getGame, he, if_false] at h
      cases hentry : (disconnectEntry sid e.1 e.2).1 with
      | none =>
        simp only [disconnect, hentry]
        exact ih hnd.2 h
      | some e0 =>
        simp only [disconnect, hentry, getGame]
        rw [if_neg (by rw [disconnectEntry_key hentry]; exact he)]
        exact ih hnd.2 h

theorem isUpperAlnum_base36_toUpper {d : Nat} (h : d < 36) :
    isUpperAlnum (Char.toUpper (base36Char d)) = true := by
  interval_cases d <;> decide

/-! ### Claim C9 -/

/-- C9 (corrected): every character of a generated session code is uppercase
alphanumeric, but the code's length is `min 5 d`, where `d` is the number of
base-36 fractional digits of the `Math.random()` draw: a draw whose base-36
expansion terminates in fewer than 5 digits yields a code shorter than 5
characters. -/
theorem C9_code_charset_and_length (ds : List Nat)
    (hds : ∀ d ∈ ds, d < 36) (hcanon : ds = [] ∨ ds.getLast? ≠ some 0) :
    (genCode ds).length = min 5 ds.length ∧
    ∀ c ∈ (genCode ds).data, isUpperAlnum c = true := by
  cases ds with
  | nil => exact ⟨by decide, by intro c hc; simp [genCode, jsNumChars36] at hc⟩
  | cons d rest =>
    constructor
    · show (String.mk (List.map Char.toUpper
        (((jsNumChars36 (d :: rest)).drop 2).take 5))).length = _
      simp [jsNumChars36, String.length, List.length_take]
      omega
    · intro c hc
      have hc' : c ∈ List.map Char.toUpper
          ((List.map base36Char (d :: rest)).take 5) := hc
      rw [List.mem_map] at hc'
      obtain ⟨c0, hc0, rfl⟩ := hc'
      have hmem : c0 ∈ List.map base36Char (d :: rest) :=
        List.take_subset _ _ hc0
      rw [List.mem_map] at hmem
      obtain ⟨d0, hd0, rfl⟩ := hmem
      exact isUpperAlnum_base36_toUpper (hds d0 hd0)

/-- C9 counterexample: the `Math.random()` draws `0` (base-36 expansion `[]`,
printed `"0"`) and `0.5` (expansion `[18]`, printed `"0.i"`) yield the codes
`""` and `"I"` — not 5 characters long — and create-game hands such a code
to the session creator. -/
theorem C9_counterexample :
    genCode [] = "" ∧ (genCode []).length = 0 ∧
    genCode [18] = "I" ∧ (genCode [18]).length = 1 ∧
    (createGame [] "s1" "Alice" none []).2.head? =
      some (Emit.toSocket "s1" (ServerEvent.gameCreated "")) := by
  decide

/-- C9 witness: a 5-digit expansion yields a full-length code. -/
theorem C9_witness : (genCode [10, 11, 12, 13, 14]).length = min 5 5 :=
  (C9_code_charset_and_length [10, 11, 12, 13, 14] (by decide) (by decide)).1

/-! ### Claim C10 -/

/-- C10 (confirmed): a submit-answer whose session code is unknown, whose
session is not active, or whose sender's connection id is absent from the
roster returns without mutating any session state and without emitting any
event. -/
theorem C10_rejected_submit_is_silent (gs : Games) (sid gameCode answer : String)
    (questionIndex : Nat) (now : Int)
    (h : getGame gs gameCode = none ∨
         ∀ g, getGame gs gameCode = some g →
           g.active = false ∨ ∀ p ∈ g.players, p.id ≠ sid) :
    submitAnswer gs sid gameCode answer questionIndex now = (gs, []) := by
  cases hq : getGame gs gameCode with
  | none => simp [submitAnswer, hq]
  | some g =>
    rcases h with h | h
    · rw [hq] at h
      exact absurd h (by simp)
    · rcases h g hq with h | h
      · simp [submitAnswer, hq, h]
      · simp only [submitAnswer, hq]
        by_cases ha : (!g.active) = true
        · rw [if_pos ha]
        · rw [if_neg ha]
          by_cases hidx : g.currentQuestionIndex ≠ some questionIndex
          · rw [if_pos hidx]
          · rw [if_neg hidx]
            have hfind : g.players.find? (fun p => p.id == sid) = none := by
              rw [List.find?_eq_none]
              intro p hp
              simpa using h p hp
            rw [hfind]

/-- C10 witness: submitting against an unknown code changes nothing. -/
theorem C10_witness :
    submitAnswer gsCreated "s1" "ZZZZZ" "Water" 0 5 = (gsCreated, []) :=
  C10_rejected_submit_is_silent gsCreated "s1" "ZZZZZ" "Water" 0 5 (Or.inl (by decide))

/-- A submit-answer by itself never changes any player's score in any
session (scoring happens only in the delayed evaluation callbacks). -/
theorem submitAnswer_scores_unchanged (gs : Games) (sid gameCode answer : String)
    (qi : Nat) (now : Int) (c : String) :
    (getGame (submitAnswer gs sid gameCode answer qi now).1 c).map
        (fun g => g.players.map (fun p => p.score)) =
      (getGame gs c).map (fun g => g.players.map (fun p => p.score)) := by
  cases hq : getGame gs gameCode with
  | none => simp [submitAnswer, hq]
  | some g =>
    by_cases ha : (!g.active) = true
    · simp [submitAnswer, hq, ha]
    · by_cases hidx : g.currentQuestionIndex ≠ some qi
      · simp [submitAnswer, hq, ha, hidx]
      · cases hp : g.players.find? (fun p => p.id == sid) with
        | none => simp [submitAnswer, hq, ha, hidx, hp]
        | some player =>
          by_cases hla : truthyStr player.lastAnswer = true
          · simp [submitAnswer, hq, ha, hidx, hp, hla]
          · by_cases hall :
                ((setAnswerFirst sid answer now g.players).all
                  (fun p => truthyStr p.lastAnswer) && !g.evaluating) = true
            all_goals
              simp only [submitAnswer, hq, hp]
              rw [if_neg ha, if_neg hidx, if_neg hla]
            · rw [if_pos hall]
              by_cases hc : c = gameCode
              · subst hc
                show (getGame (setGame gs c _) c).map _ = _
                rw [getGame_setGame_self, hq]
                exact congrArg some (scores_setAnswerFirst sid answer now g.players)
              · show (getGame (setGame gs gameCode _) c).map _ = _
                rw [getGame_setGame_ne hc]
            · rw [if_neg hall]
              by_cases hc : c = gameCode
              · subst hc
                show (getGame (setGame gs c _) c).map _ = _
                rw [getGame_setGame_self, hq]
                exact congrArg some (scores_setAnswerFirst sid answer now g.players)
              · show (getGame (setGame gs gameCode _) c).map _ = _
                rw [getGame_setGame_ne hc]

/-! ### Claim C8 -/

/-- C8 (corrected): once a player's recorded answer for the current question
is NON-EMPTY, any further submit-answer from the same connection is a silent
no-op (registry unchanged, no events), and a submit-answer by itself never
changes any player's score in any session.  A recorded empty-string answer,
however, is falsy under the re-submit guard and is overwritten. -/
theorem C8_first_nonempty_submission_wins :
    (∀ (gs : Games) (sid gameCode answer : String) (qi : Nat) (now : Int),
      truthyStr ((getGame gs gameCode).bind
        (fun g => (g.players.find? (fun p => p.id == sid)).bind
          (fun p => p.lastAnswer))) = true →
      submitAnswer gs sid gameCode answer qi now = (gs, [])) ∧
    (∀ (gs : Games) (sid gameCode answer : String) (qi : Nat) (now : Int) (c : String),
      (getGame (submitAnswer gs sid gameCode answer qi now).1 c).map
          (fun g => g.players.map (fun p => p.score)) =
        (getGame gs c).map (fun g => g.players.map (fun p => p.score))) := by
  constructor
  · intro gs sid gameCode answer qi now h
    cases hq : getGame gs gameCode with
    | none => simp [submitAnswer, hq]
    | some g =>
      cases hp : g.players.find? (fun p => p.id == sid) with
      | none =>
        simp only [hq, Option.some_bind, hp, Option.none_bind] at h
        simp [truthyStr] at h
      | some player =>
        simp only [hq, Option.some_bind, hp, Option.some_bind] at h
        simp [submitAnswer, hq, hp, h]
  · intro gs sid gameCode answer qi now c
    exact submitAnswer_scores_unchanged gs sid gameCode answer qi now c

/-- C8 counterexample: an empty-string answer is recorded, and a second
submission from the same connection for the same question index overwrites
it — the first submission does not win. -/
theorem C8_counterexample :
    (getGame (submitAnswer gsStarted "s1" "ABCDE" "" 0 5).1 "ABCDE").map
        (fun g => g.players.map (fun p => p.lastAnswer)) = some [some ""] ∧
    (getGame (submitAnswer (submitAnswer gsStarted "s1" "ABCDE" "" 0 5).1
        "s1" "ABCDE" "Fire" 0 6).1 "ABCDE").map
        (fun g => g.players.map (fun p => p.lastAnswer)) = some [some "Fire"] := by
  decide

/-- C8 witness: after a non-empty answer is recorded, a further submit is a
silent no-op. -/
theorem C8_witness :
    submitAnswer (submitAnswer gsStarted "s1" "ABCDE" "Fire" 0 5).1
        "s1" "ABCDE" "Air" 0 6 =
      ((submitAnswer gsStarted "s1" "ABCDE" "Fire" 0 5).1, []) :=
  C8_first_nonempty_submission_wins.1
    (submitAnswer gsStarted "s1" "ABCDE" "Fire" 0 5).1 "s1" "ABCDE" "Air" 0 6 (by decide)

/-! ### Claim C6 -/

/-- C6 (corrected): evaluation of a question — by deadline timeout or by the
all-answered path — increments each player's score by exactly 1 iff the
player's recorded answer is NON-EMPTY and equals the correct answer text
(the truthiness guard `ans && ans === correct` skips an empty-string
answer), leaves the score unchanged otherwise, and clears every player's
recorded answer and answer timestamp. -/
theorem C6_evaluation_scoring :
    (∀ (correct : Option String) (p : Player),
      (scorePlayer correct p).lastAnswer = none ∧
      (scorePlayer correct p).lastAnswerTs = none ∧
      ((scorePlayer correct p).score = p.score + 1 ↔
        ∃ a, p.lastAnswer = some a ∧ a ≠ "" ∧ correct = some a) ∧
      (¬(∃ a, p.lastAnswer = some a ∧ a ≠ "" ∧ correct = some a) →
        (scorePlayer correct p).score = p.score)) ∧
    (∀ (gs : Games) (gameCode : String) (now : Int),
      (getGame gs gameCode).map (fun g => deadlineArmed g.timer) = some true →
      (getGame (deadlineFire gs gameCode now).1 gameCode).map (fun g => g.players) =
        (getGame gs gameCode).map
          (fun g => g.players.map (scorePlayer (timerCorrect g.timer)))) ∧
    (∀ (gs : Games) (gameCode : String) (now : Int),
      (getGame gs gameCode).map (fun g => g.evaluating && g.timer == none) = some true →
      (getGame (revealEvalFire gs gameCode now).1 gameCode).map (fun g => g.players) =
        (getGame gs gameCode).map
          (fun g => g.players.map (scorePlayer (correctOf g)))) := by
  refine ⟨?_, ?_, ?_⟩
  · intro correct p
    refine ⟨rfl, rfl, ?_, ?_⟩
    · cases hla : p.lastAnswer with
      | none => simp [scorePlayer, hla]
      | some a =>
        by_cases he : a = ""
        · simp [scorePlayer, hla, he]
        · by_cases hc : correct = some a
          · simp [scorePlayer, hla, he, hc]
          · have hne : (some a == correct) = false := by
              cases correct with
              | none => rfl
              | some b =>
                rw [beq_eq_false_iff_ne]
                intro hab
                exact hc hab.symm
            simp [scorePlayer, hla, he, hc, hne]
    · intro hno
      cases hla : p.lastAnswer with
      | none => simp [scorePlayer, hla]
      | some a =>
        by_cases he : a = ""
        · simp [scorePlayer, hla, he]
        · have hc : correct ≠ some a := fun hc => hno ⟨a, hla, he, hc⟩
          have hne : (some a == correct) = false := by
            cases correct with
            | none => rfl
            | some b =>
              rw [beq_eq_false_iff_ne]
              intro hab
              exact hc hab.symm
          simp [scorePlayer, hla, he, hne]
  · intro gs gameCode now h
    cases hq : getGame gs gameCode with
    | none => rw [hq] at h; simp at h
    | some g =>
      rw [hq] at h
      simp only [Option.map_some', Option.some.injEq] at h
      cases ht : g.timer with
      | none => rw [ht] at h; simp [deadlineArmed] at h
      | some t =>
        cases t with
        | nextQuestion => rw [ht] at h; simp [deadlineArmed] at h
        | deadline idx raw =>
          simp only [deadlineFire, hq, ht, Option.map_some']
          rw [getGame_setGame_self]
          rfl
  · intro gs gameCode now h
    cases hq : getGame gs gameCode with
    | none => rw [hq] at h; simp at h
    | some g =>
      rw [hq] at h
      simp only [Option.map_some', Option.some.injEq] at h
      simp only [revealEvalFire, hq, h, if_true]
      rw [getGame_setGame_self]
      rfl

/-- C6 counterexample: the sole player's recorded answer for question 0 is
the empty string and equals the question's correct answer text, yet after
the deadline evaluation the score did not increase. -/
theorem C6_counterexample :
    (getGame gsEmptySub "ABCDE").map
        (fun g => g.players.map (fun p => p.lastAnswer)) = some [some ""] ∧
    (getGame gsEmptySub "ABCDE").map
        (fun g => (g.questions.getD []).map (fun q => q.correct_answer)) = some [""] ∧
    (getGame (deadlineFire gsEmptySub "ABCDE" 20000).1 "ABCDE").map
        (fun g => g.players.map (fun p => (p.score, p.lastAnswer))) =
      some [(0, none)] := by
  decide

/-- C6 witness: the all-answered evaluation applies `scorePlayer` with the
current question's correct answer to every player. -/
theorem C6_witness :
    (getGame (revealEvalFire gsAnswered "ABCDE" 6).1 "ABCDE").map (fun g => g.players) =
      (getGame gsAnswered "ABCDE").map
        (fun g => g.players.map (scorePlayer (correctOf g))) :=
  C6_evaluation_scoring.2.2 gsAnswered "ABCDE" 6 (by decide)

/-! ### Claim C4 -/

/-- C4 (corrected): when the question fetch fails during start, the failure
is reported only to the requesting connection, the session keeps its
players, questions, currentQuestionIndex and active flag (it stays in
Lobby), and every other session is untouched — but `game.settings` IS
mutated: the handler persists the new settings before the `try` block, so
the failed start does leave a partial state mutation. -/
theorem C4_failed_fetch_reports_to_requester_but_mutates_settings
    (gs : Games) (sid gameCode : String) (inp : Option StartSettings)
    (shuffle : List String → List String) (now : Int) (g : Game)
    (h1 : getGame gs gameCode = some g) (h2 : g.host = sid) :
    startGame gs sid gameCode inp FetchResult.err shuffle now =
      (setGame gs gameCode { g with settings := some (mkSettings inp) },
       [Emit.toSocket sid (ServerEvent.startError "Failed to fetch questions")]) ∧
    getGame (startGame gs sid gameCode inp FetchResult.err shuffle now).1 gameCode =
      some { g with settings := some (mkSettings inp) } ∧
    (∀ c, c ≠ gameCode →
      getGame (startGame gs sid gameCode inp FetchResult.err shuffle now).1 c =
        getGame gs c) := by
  have hng : ¬g.host ≠ sid := fun hc => hc h2
  have hmain : startGame gs sid gameCode inp FetchResult.err shuffle now =
      (setGame gs gameCode { g with settings := some (mkSettings inp) },
       [Emit.toSocket sid (ServerEvent.startError "Failed to fetch questions")]) := by
    simp only [startGame, h1]
    rw [if_neg hng]
  refine ⟨hmain, ?_, ?_⟩
  · rw [hmain]
    exact getGame_setGame_self gs gameCode _
  · intro c hc
    rw [hmain]
    exact getGame_setGame_ne hc

/-- C4 counterexample: a session whose settings were previously unset has its
settings overwritten by a start whose fetch fails — the failed start is not
mutation-free. -/
theorem C4_counterexample :
    (getGame gsCreated "ABCDE").map (fun g => g.settings) = some none ∧
    (getGame (startGame gsCreated "s1" "ABCDE" none FetchResult.err id 0).1 "ABCDE").map
        (fun g => g.settings) =
      some (some { category := none, difficulty := none, amount := 10,
                   timeLimit := some 15 }) := by
  decide

/-- C4 witness: the failed-start equation at a concrete session. -/
theorem C4_witness :
    startGame gsCreated "s1" "ABCDE" none FetchResult.err id 0 =
      (setGame gsCreated "ABCDE" { gameABCDE with settings := some (mkSettings none) },
       [Emit.toSocket "s1" (ServerEvent.startError "Failed to fetch questions")]) :=
  (C4_failed_fetch_reports_to_requester_but_mutates_settings
    gsCreated "s1" "ABCDE" none id 0 gameABCDE (by decide) (by decide)).1

/-! ### Claim C5 -/

/-- C5 (corrected): a transport error during start yields a start-error reply
to the requester and no match start; but an EMPTY fetched batch is handled
differently, not identically: no start-error is sent — instead the session
broadcasts game-started followed immediately by game-over, ending with
active = false, questions = [] and currentQuestionIndex = 0 (not an
untouched Lobby session). -/
theorem C5_empty_batch_differs_from_error
    (gs : Games) (sid gameCode : String) (inp : Option StartSettings)
    (shuffle : List String → List String) (now : Int) (g : Game)
    (h1 : getGame gs gameCode = some g) (h2 : g.host = sid) :
    (startGame gs sid gameCode inp FetchResult.err shuffle now).2 =
      [Emit.toSocket sid (ServerEvent.startError "Failed to fetch questions")] ∧
    (startGame gs sid gameCode inp (FetchResult.ok []) shuffle now).2 =
      [Emit.toRoom gameCode (ServerEvent.gameStarted (mkSettings inp)),
       Emit.toRoom gameCode (ServerEvent.gameOver (g.players.map scoreView))] ∧
    (getGame (startGame gs sid gameCode inp (FetchResult.ok []) shuffle now).1 gameCode).map
        (fun g2 => (g2.active, g2.questions, g2.currentQuestionIndex)) =
      some (false, some [], some 0) := by
  have hng : ¬g.host ≠ sid := fun hc => hc h2
  refine ⟨?_, ?_, ?_⟩
  · simp only [startGame, h1]
    rw [if_neg hng]
  · simp only [startGame, h1]
    rw [if_neg hng]
    simp only [List.map_nil, sendQuestion, getGame_setGame_self, List.getElem?_nil,
      endGame]
  · simp only [startGame, h1]
    rw [if_neg hng]
    simp only [List.map_nil, sendQuestion, getGame_setGame_self, List.getElem?_nil,
      endGame]
    rfl

/-- C5 counterexample: at a concrete session, the empty batch emits
game-started and game-over (no start-error), unlike the transport error. -/
theorem C5_counterexample :
    (startGame gsCreated "s1" "ABCDE" none (FetchResult.ok []) id 0).2 =
      [Emit.toRoom "ABCDE" (ServerEvent.gameStarted
        { category := none, difficulty := none, amount := 10, timeLimit := some 15 }),
       Emit.toRoom "ABCDE" (ServerEvent.gameOver
        [{ id := "s1", name := "Alice", score := 0, avatar := none }])] ∧
    (startGame gsCreated "s1" "ABCDE" none FetchResult.err id 0).2 =
      [Emit.toSocket "s1" (ServerEvent.startError "Failed to fetch questions")] := by
  decide

/-- C5 witness: the two divergent outcomes at a concrete session. -/
theorem C5_witness :
    (startGame gsCreated "s1" "ABCDE" none FetchResult.err id 0).2 =
      [Emit.toSocket "s1" (ServerEvent.startError "Failed to fetch questions")] :=
  (C5_empty_batch_differs_from_error gsCreated "s1" "ABCDE" none id 0 gameABCDE
    (by decide) (by decide)).1

/-! ### Claim C3 -/

/-- C3 (corrected): an ABSENT `timeLimit` defaults to 15 seconds (timed); the
untimed mode requires an EXPLICIT `null` time limit.  For the genuinely
untimed configuration: the stored setting is null; dispatching a question
arms no deadline timer and sets no deadline; the deadline callback is a
no-op when no deadline timer is armed; and submit-answer never changes
scores and begins evaluation only when every current player holds a
(truthy) recorded answer. -/
theorem C3_untimed_requires_explicit_null :
    (∀ inp : Option StartSettings,
      inp.bind (fun s => s.timeLimit) = some none →
        (mkSettings inp).timeLimit = none) ∧
    (∀ (gs : Games) (gameCode : String) (shuffle : List String → List String) (now : Int),
      (getGame gs gameCode).map (fun g => effTimeLimit g.settings) = some none →
      (getGame gs gameCode).map
          (fun g => ((g.questions.getD [])[g.currentQuestionIndex.getD 0]?).isSome &&
            g.questions.isSome) = some true →
      (getGame (sendQuestion gs gameCode shuffle now).1 gameCode).map
          (fun g => (g.timer, g.questionEndAt)) = some (none, none)) ∧
    (∀ (gs : Games) (gameCode : String) (now : Int),
      (getGame gs gameCode).map (fun g => deadlineArmed g.timer) = some false →
      deadlineFire gs gameCode now = (gs, [])) ∧
    (∀ (gs : Games) (sid gameCode answer : String) (qi : Nat) (now : Int),
      ((getGame (submitAnswer gs sid gameCode answer qi now).1 gameCode).map
          (fun g => g.players.map (fun p => p.score)) =
        (getGame gs gameCode).map (fun g => g.players.map (fun p => p.score))) ∧
      ((getGame gs gameCode).map (fun g => g.evaluating) = some false →
        (getGame (submitAnswer gs sid gameCode answer qi now).1 gameCode).map
          (fun g => !g.evaluating || g.players.all (fun p => truthyStr p.lastAnswer)) =
        some true)) := by
  refine ⟨?_, ?_, ?_, ?_⟩
  · intro inp h
    simp only [mkSettings, h]
  · intro gs gameCode shuffle now h1 h2
    cases hq : getGame gs gameCode with
    | none => rw [hq] at h1; simp at h1
    | some g =>
      rw [hq] at h1 h2
      simp only [Option.map_some', Option.some.injEq] at h1 h2
      cases hqs : g.questions with
      | none => rw [hqs] at h2; simp at h2
      | some qs =>
        rw [hqs] at h2
        cases hraw : qs[g.currentQuestionIndex.getD 0]? with
        | none => rw [show (some qs).getD [] = qs from rfl, hraw] at h2; simp at h2
        | some raw =>
          simp only [sendQuestion, hq, hqs, hraw]
          rw [getGame_setGame_self]
          simp only [Option.map_some', Option.some.injEq, h1, Option.map_none']
  · intro gs gameCode now h
    cases hq : getGame gs gameCode with
    | none => simp [deadlineFire, hq]
    | some g =>
      rw [hq] at h
      simp only [Option.map_some', Option.some.injEq] at h
      cases ht : g.timer with
      | none => simp [deadlineFire, hq, ht]
      | some t =>
        cases t with
        | nextQuestion => simp [deadlineFire, hq, ht]
        | deadline idx raw => rw [ht] at h; simp [deadlineArmed] at h
  · intro gs sid gameCode answer qi now
    constructor
    · exact submitAnswer_scores_unchanged gs sid gameCode answer qi now gameCode
    · intro hev
      cases hq : getGame gs gameCode with
      | none => rw [hq] at hev; simp at hev
      | some g =>
        rw [hq] at hev
        simp only [Option.map_some', Option.some.injEq] at hev
        by_cases ha : (!g.active) = true
        · simp [submitAnswer, hq, ha, hev]
        · by_cases hidx : g.currentQuestionIndex ≠ some qi
          · simp [submitAnswer, hq, ha, hidx, hev]
          · cases hp : g.players.find? (fun p => p.id == sid) with
            | none => simp [submitAnswer, hq, ha, hidx, hp, hev]
            | some player =>
              by_cases hla : truthyStr player.lastAnswer = true
              · simp [submitAnswer, hq, ha, hidx, hp, hla, hev]
              · by_cases hall :
                    ((setAnswerFirst sid answer now g.players).all
                      (fun p => truthyStr p.lastAnswer) && !g.evaluating) = true
                · have hallp : (setAnswerFirst sid answer now g.players).all
                      (fun p => truthyStr p.lastAnswer) = true :=
                    (Bool.and_eq_true _ _).mp hall |>.1
                  simp only [submitAnswer, hq, hp]
                  rw [if_neg ha, if_neg hidx, if_neg hla, if_pos hall]
                  show (getGame (setGame gs gameCode _) gameCode).map _ = _
                  rw [getGame_setGame_self]
                  simp [hallp]
                · simp only [submitAnswer, hq, hp]
                  rw [if_neg ha, if_neg hidx, if_neg hla, if_neg hall]
                  show (getGame (setGame gs gameCode _) gameCode).map _ = _
                  rw [getGame_setGame_self]
                  simp [hev]

/-- C3 counterexample: a start with `timeLimit` ABSENT stores a 15-second
limit, arms a deadline timer and sets a question deadline — the match is not
untimed. -/
theorem C3_counterexample :
    (getGame gsStarted "ABCDE").map
        (fun g => (g.settings.map (fun s => s.timeLimit), deadlineArmed g.timer,
          g.questionEndAt)) =
      some (some (some 15), true, some 15000) := by
  decide

/-- C3 witness: with an explicit null time limit, dispatching a question arms
no timer and sets no deadline. -/
theorem C3_witness :
    (getGame (sendQuestion gsUntimed "ABCDE" id 100).1 "ABCDE").map
        (fun g => (g.timer, g.questionEndAt)) = some (none, none) :=
  C3_untimed_requires_explicit_null.2.1 gsUntimed "ABCDE" id 100 (by decide) (by decide)

/-! ### Claim C2 -/

/-- C2 (corrected): every session in a reachable registry has at least one
player (the roster size is bounded below by 1 while the session exists, so
it never goes negative), and a duplicate join from a connection already on
the roster leaves the session unchanged; but there is NO capacity check in
join-game: joining a session whose roster already holds 8 players appends a
ninth. -/
theorem C2_roster_bounds (gs : Games) (hr : Reachable gs) :
    (∀ code g, getGame gs code = some g → 1 ≤ g.players.length) ∧
    (∀ (sid code pname : String) (avatar : Option String) (g : Game),
      getGame gs code = some g →
      g.players.any (fun p => p.id == sid) = true →
      getGame (joinGame gs sid code pname avatar).1 code = some g) := by
  have hreg := reachable_goodReg hr
  constructor
  · intro code g h
    have hg := goodGame_of_getGame hreg h
    cases hps : g.players with
    | nil => exact absurd hps hg.1
    | cons p t => simp [hps]
  · intro sid code pname avatar g h hap
    simp [joinGame, h, hap]
    exact getGame_setGame_self gs code g

/-- C2 counterexample: a session with a full 8-player roster accepts a ninth
distinct player — the capacity of 8 is not enforced. -/
theorem C2_counterexample :
    (getGame gs8 "ABCDE").map (fun g => g.players.length) = some 8 ∧
    (getGame (joinGame gs8 "s9" "ABCDE" "P9" none).1 "ABCDE").map
        (fun g => g.players.length) = some 9 := by
  decide

/-- C2 witness: a freshly created session has a 1-element roster. -/
theorem C2_witness : 1 ≤ gameABCDE.players.length :=
  (C2_roster_bounds gsCreated
    (Reachable.step Reachable.init
      (Step.create [] "s1" "Alice" none [10, 11, 12, 13, 14]))).1
    "ABCDE" gameABCDE (by decide)

/-! ### Claim C7 -/

/-- C7 (confirmed): after any leave-session or disconnect on a reachable
registry, if the session still exists then exactly one remaining player
holds host privilege and it is the player now at roster index 0 (the
earliest-joined survivor); if the removal empties the roster, the session is
removed from the registry. -/
theorem C7_host_reassignment (gs : Games) (hr : Reachable gs) (sid gameCode : String) :
    (∀ g', getGame (leaveGame gs sid gameCode).1 gameCode = some g' →
      (∃ p0 t, g'.players = p0 :: t ∧ g'.host = p0.id) ∧
      g'.players.countP (fun p => p.id == g'.host) = 1) ∧
    (∀ g', getGame (disconnect gs sid).1 gameCode = some g' →
      (∃ p0 t, g'.players = p0 :: t ∧ g'.host = p0.id) ∧
      g'.players.countP (fun p => p.id == g'.host) = 1) ∧
    (∀ g, getGame gs gameCode = some g → removeFirstById sid g.players = [] →
      getGame (leaveGame gs sid gameCode).1 gameCode = none) ∧
    (∀ g, getGame gs gameCode = some g → removeFirstById sid g.players = [] →
      getGame (disconnect gs sid).1 gameCode = none) := by
  have hreg := reachable_goodReg hr
  have goodCase : ∀ gs2 : Games, GoodReg gs2 → ∀ g', getGame gs2 gameCode = some g' →
      (∃ p0 t, g'.players = p0 :: t ∧ g'.host = p0.id) ∧
      g'.players.countP (fun p => p.id == g'.host) = 1 := by
    intro gs2 hreg2 g' h
    have hg := goodGame_of_getGame hreg2 h
    refine ⟨?_, countP_host_eq_one hg⟩
    have h22 := hg.2.2
    cases hps : g'.players with
    | nil => exact absurd hps hg.1
    | cons p0 t =>
      refine ⟨p0, t, rfl, ?_⟩
      rw [hps] at h22
      simp only [ids, List.map_cons, List.head?_cons, Option.some.injEq] at h22
      exact h22.symm
  refine ⟨?_, ?_, ?_, ?_⟩
  · exact goodCase _ (reachable_goodReg (Reachable.step hr (Step.leave gs sid gameCode)))
  · exact goodCase _ (reachable_goodReg (Reachable.step hr (Step.disc gs sid)))
  · intro g h hrem
    simp only [leaveGame, h, hrem]
    exact getGame_delGame_self hreg.1
  · intro g h hrem
    have hg := goodGame_of_getGame hreg h
    exact getGame_disconnect_removed hreg.1 h
      (any_id_of_removeFirstById_nil hg.1 hrem) hrem

/-- C7 witness: after the host of a 2-player session leaves, the survivor at
index 0 is the unique host. -/
theorem C7_witness :
    gameAfterLeave.players.countP (fun p => p.id == gameAfterLeave.host) = 1 :=
  ((C7_host_reassignment gs2p
    (Reachable.step
      (Reachable.step Reachable.init
        (Step.create [] "s1" "Alice" none [10, 11, 12, 13, 14]))
      (Step.join gsCreated "s2" "ABCDE" "Bob" none))
    "s1" "ABCDE").1 gameAfterLeave (by decide)).2

/-! ### Claim C1 -/

/-- C1 (corrected): the sanitized roster payloads broadcast by submit-answer
(`update-players`, `all-answered`) contain only ids, names and avatars — no
recorded answer text; but (i) every question payload (the shape built by
both `sendQuestion` and `get-state`) contains the question's correct answer
text, (ii) the `question` broadcast entering QuestionOpen carries such a
payload, (iii) a `get-state` reply for an open, non-evaluating question
carries it too, and (iv) the roster broadcast of leave-game (like those of
create/join/disconnect/get-players) serializes raw player records, whose
string content includes any player's recorded answer text. -/
theorem C1_open_question_payloads :
    (∀ ps : List Player,
      eventStrings (ServerEvent.updatePlayersView (ps.map playerView)) =
        (ps.map (fun p => [p.id, p.name] ++ p.avatar.toList)).flatten) ∧
    (∀ ps : List Player,
      eventStrings (ServerEvent.allAnswered (ps.map playerView)) =
        (ps.map (fun p => [p.id, p.name] ++ p.avatar.toList)).flatten) ∧
    (∀ (idx : Nat) (raw : Question) (aa : List String) (tl et : Option Int),
      raw.correct_answer ∈ questionPayloadStrings (questionPayloadOf idx raw aa tl et)) ∧
    (∀ (gs : Games) (gameCode : String) (shuffle : List String → List String) (now : Int)
       (g : Game) (qs : List Question) (raw : Question),
      getGame gs gameCode = some g → g.questions = some qs →
      qs[g.currentQuestionIndex.getD 0]? = some raw →
      (sendQuestion gs gameCode shuffle now).2.any
        (fun e => match e with
          | Emit.toRoom _ (ServerEvent.questionEv qp) =>
              (questionPayloadStrings qp).contains raw.correct_answer
          | _ => false) = true) ∧
    (∀ (gs : Games) (sid gameCode : String) (shuffle : List String → List String)
       (now : Int) (g : Game) (idx : Nat) (raw : Question),
      getGame gs gameCode = some g → g.evaluating = false →
      g.currentQuestionIndex = some idx → (g.questions.getD [])[idx]? = some raw →
      (getState gs sid gameCode shuffle now).any
        (fun e => match e with
          | Emit.toSocket _ (ServerEvent.stateSnapshot _ (some qp) _ _) =>
              (questionPayloadStrings qp).contains raw.correct_answer
          | _ => false) = true) ∧
    (∀ (p : Player) (a : String),
      a ∈ playerStrings { p with lastAnswer := some a }) ∧
    (∀ (gs : Games) (sid gameCode : String) (g : Game) (p0 : Player) (t : List Player),
      getGame gs gameCode = some g → removeFirstById sid g.players = p0 :: t →
      (leaveGame gs sid gameCode).2 =
        [Emit.toRoom gameCode (ServerEvent.updatePlayersRaw (p0 :: t))]) := by
  refine ⟨?_, ?_, ?_, ?_, ?_, ?_, ?_⟩
  · intro ps
    simp only [eventStrings, List.map_map]
    rfl
  · intro ps
    simp only [eventStrings, List.map_map]
    rfl
  · intro idx raw aa tl et
    simp [questionPayloadStrings, questionPayloadOf]
  · intro gs gameCode shuffle now g qs raw hq hqs hraw
    simp only [sendQuestion, hq, hqs, hraw, List.any_cons, List.any_nil]
    simp [questionPayloadOf, questionPayloadStrings]
  · intro gs sid gameCode shuffle now g idx raw hq hev hidx hraw
    simp only [getState, hq, hev, hidx, hraw, Bool.false_eq_true, if_false,
      List.any_cons, List.any_nil]
    simp [questionPayloadOf, questionPayloadStrings]
  · intro p a
    simp [playerStrings]
  · intro gs sid gameCode g p0 t hq hrem
    simp only [leaveGame, hq, hrem]

/-- C1 counterexample: while question 0 is open (active, not evaluating),
the `question` event broadcast to the room and the `get-state` reply both
contain the string `"Water"`, the open question's correct answer text. -/
theorem C1_counterexample :
    (getGame gsStarted "ABCDE").map (fun g => g.active && !g.evaluating) = some true ∧
    (getGame gsStarted "ABCDE").map
        (fun g => (g.questions.getD []).map (fun q => q.correct_answer)) = some ["Water"] ∧
    (startGame gsCreated "s1" "ABCDE" none (FetchResult.ok [exApiQ]) id 0).2.any
      (fun e => match e with
        | Emit.toRoom _ (ServerEvent.questionEv qp) =>
            (questionPayloadStrings qp).contains "Water"
        | _ => false) = true ∧
    (getState gsStarted "s1" "ABCDE" id 1).any
      (fun e => match e with
        | Emit.toSocket _ (ServerEvent.stateSnapshot _ (some qp) _ _) =>
            (questionPayloadStrings qp).contains "Water"
        | _ => false) = true := by
  decide

/-- C1 witness: the get-state reply for the concrete open question contains
its correct answer text. -/
theorem C1_witness :
    (getState gsStarted "s2" "ABCDE" id 1).any
      (fun e => match e with
        | Emit.toSocket _ (ServerEvent.stateSnapshot _ (some qp) _ _) =>
            (questionPayloadStrings qp).contains (formatQuestion exApiQ).correct_answer
        | _ => false) = true :=
  C1_open_question_payloads.2.2.2.2.1 gsStarted "s2" "ABCDE" id 1 gameOpenQuestion 0
    (formatQuestion exApiQ) (by decide) (by decide) (by decide) (by decide)

end TriviaServer
